import Mathlib

/-!
Verification of the expense-report extraction pipeline
(`scripts/consolidate-expense-data.py`): a vendor classifier driven by an
ordered list of case-insensitive patterns, and a line-scanning table
extractor producing `ExpenseLine` records.

Python strings are modelled as `String`, with the handful of `str`
operations the script uses (strip, split, startswith, containment,
character removal) re-implemented structurally over `List Char` so that
everything evaluates by kernel reduction.  Python floats are modelled as
exact rationals (`Rat`): the script only ever parses finite decimal
literals, whose values are rational.
-/

namespace ExpenseTrack

/-! ## Python string primitives -/

/-- Python `str.strip()` on a character list: drop whitespace from both ends. -/
def stripL (cs : List Char) : List Char :=
  ((cs.dropWhile Char.isWhitespace).reverse.dropWhile Char.isWhitespace).reverse

/-- Python `str.strip()`. -/
def pyStrip (s : String) : String := ⟨stripL s.data⟩

/-- Does the haystack start with the needle (first argument)? -/
def startsL : List Char → List Char → Bool
  | [], _ => true
  | _ :: _, [] => false
  | n :: ns, h :: hs => n = h && startsL ns hs

/-- Does the needle (first argument) occur contiguously in the haystack? -/
def containsL (n : List Char) : List Char → Bool
  | [] => startsL n []
  | h :: t => startsL n (h :: t) || containsL n t

/-- Python's `sub in s`. -/
def pyContains (s sub : String) : Bool := containsL sub.data s.data

/-- Python's `s.startswith(p)`. -/
def pyStartsWith (s p : String) : Bool := startsL p.data s.data

/-- Python `str.split(sep)` for a predicate on characters: keeps empty fields,
exactly like Python's one-character `split`. -/
def splitPredL (p : Char → Bool) : List Char → List (List Char)
  | [] => [[]]
  | d :: rest =>
    if p d then [] :: splitPredL p rest
    else
      match splitPredL p rest with
      | [] => [[d]]
      | g :: gs => (d :: g) :: gs

/-- Python's `s.split(c)` for a single-character separator. -/
def pySplitChar (s : String) (c : Char) : List String :=
  (splitPredL (fun d => d = c) s.data).map (fun l => (⟨l⟩ : String))

/-- Python's whitespace `s.split()` (no argument): runs of whitespace
separate tokens and produce no empty tokens. -/
def pySplitWs (s : String) : List String :=
  ((splitPredL Char.isWhitespace s.data).map (fun l => (⟨l⟩ : String))).filter
    (fun w => w ≠ "")

/-- Python's `s.replace(c, '')`: remove every occurrence of a character. -/
def pyRemoveChar (s : String) (c : Char) : String :=
  ⟨s.data.filter (fun d => d ≠ c)⟩

/-! ## Regular-expression engine

The script calls `re.search(pattern, description, re.IGNORECASE)`.  The
patterns in `VENDOR_PATTERNS` use only: literal characters, `\b` word
boundaries, top-level alternation `|`, `.*`, an escaped dot `\.`, and one
optional single character `'?`.  The syntax tree below covers exactly
those constructs; matching is case-insensitive as in the script. -/

/-- Python's `\w` over the ASCII descriptions handled here. -/
def isWordChar (c : Char) : Bool := c.isAlphanum || c = '_'

/-- Regular expressions, restricted to the constructs that occur in
`VENDOR_PATTERNS`. -/
inductive RE where
  | eps
  | ch (c : Char)
  | wb
  | dotstar
  | opt (c : Char)
  | cat (a b : RE) : RE
  | alt (a b : RE) : RE

/-- All states reachable from `(p, s)` by consuming any number of
arbitrary characters (the semantics of `.*`).  A state is the previous
character (for `\b`) together with the remaining input. -/
def dotstarStates : Option Char → List Char → List (Option Char × List Char)
  | p, [] => [(p, [])]
  | p, c :: rest => (p, c :: rest) :: dotstarStates (some c) rest

/-- Single case-insensitive character step. -/
def chStep (c : Char) : Option Char → List Char → List (Option Char × List Char)
  | _, [] => []
  | _, d :: rest => if d.toLower = c.toLower then [(some d, rest)] else []

/-- All states reachable by matching `r` against a prefix of the input.
The `Option Char` is the character immediately before the current
position, used to decide `\b`. -/
def reRun : RE → Option Char → List Char → List (Option Char × List Char)
  | .eps, p, s => [(p, s)]
  | .ch c, p, s => chStep c p s
  | .wb, p, s =>
    let before := match p with | none => false | some c => isWordChar c
    let after := match s with | [] => false | d :: _ => isWordChar d
    if before ≠ after then [(p, s)] else []
  | .dotstar, p, s => dotstarStates p s
  | .opt c, p, s => (p, s) :: chStep c p s
  | .cat a b, p, s => ((reRun a p s).map (fun q => reRun b q.1 q.2)).flatten
  | .alt a b, p, s => reRun a p s ++ reRun b p s

/-- Can `r` match starting at the current position, or anywhere later? -/
def reSearchAux (r : RE) : Option Char → List Char → Bool
  | p, [] => !(reRun r p []).isEmpty
  | p, c :: rest => !(reRun r p (c :: rest)).isEmpty || reSearchAux r (some c) rest

/-- Python's `re.search(r, s, re.IGNORECASE) is not None`: the pattern
matches somewhere in `s`, case-insensitively. -/
def reSearch (r : RE) (s : String) : Bool := reSearchAux r none s.data

/-- Concatenation of the literal characters of `s`. -/
def lit (s : String) : RE := s.data.foldr (fun c r => RE.cat (RE.ch c) r) RE.eps

/-- The word `s` between two word boundaries, the shape of most rules. -/
def bw (s : String) : RE := RE.cat RE.wb (RE.cat (lit s) RE.wb)

/-- Concatenation of a list of regular expressions. -/
def reCat (l : List RE) : RE := l.foldr RE.cat RE.eps

/-- The apostrophe character, written by code point to keep source text
free of quote-escape pitfalls. -/
def quoteChar : Char := Char.ofNat 39

/-! ## The classifier rule table (`VENDOR_PATTERNS`)

One entry per line of the Python list, in the same order.  Each pattern
string is transcribed into the `RE` syntax tree: `\bW\b` becomes `bw "W"`,
a trailing unanchored literal keeps only the leading `\b`, `.*` becomes
`RE.dotstar`, `\.` is the literal dot inside `lit`, and `\'?` is
`RE.opt quoteChar`. -/

def VENDOR_PATTERNS : List (RE × String) := [
  -- Airlines
  (RE.alt (bw "Delta") (bw "DELTA AIR"), "Delta Airlines"),
  (RE.alt (bw "American") (RE.cat RE.wb (lit "AMERICAN AIR")), "American Airlines"),
  (bw "Southwest", "Southwest Airlines"),
  (bw "United", "United Airlines"),
  -- Hotels
  (RE.alt (bw "Hampton Inn") (bw "HAMPTON INN"), "Hampton Inn"),
  (RE.alt (bw "Hilton") (bw "HILTON"), "Hilton"),
  (RE.alt (bw "Marriott") (bw "MARRIOTT"), "Marriott"),
  (RE.alt (bw "DoubleTree") (bw "DOUBLETREE"), "DoubleTree"),
  (bw "Tribute Portfolio", "Tribute Portfolio Hotel"),
  -- Car Rental
  (RE.alt (bw "Hertz") (bw "HERTZ"), "Hertz"),
  (bw "Enterprise", "Enterprise"),
  -- Parking
  (RE.alt (reCat [bw "RDU", RE.dotstar, bw "Parking"]) (bw "RDUAA"), "RDU Airport Parking"),
  (bw "Parking", "Parking"),
  -- Ride Share
  (RE.alt (bw "Lyft") (bw "LYFT"), "Lyft"),
  (RE.alt (bw "Uber") (bw "UBER"), "Uber"),
  -- Software/Subscriptions
  (RE.alt (bw "ChatGPT") (RE.alt (bw "OpenAI") (bw "OPENAI")), "OpenAI"),
  (RE.alt (bw "Claude") (bw "CLAUDE.AI"), "Anthropic Claude"),
  (RE.alt (bw "Cursor") (bw "CURSOR"), "Cursor AI"),
  (RE.alt (bw "Twilio") (bw "TWILIO"), "Twilio"),
  (RE.alt (bw "Foxit") (bw "FOXIT"), "Foxit"),
  (RE.alt (bw "Fireflies") (bw "FIREFLIES"), "Fireflies.AI"),
  (RE.alt (bw "GoDaddy") (bw "GODADDY"), "GoDaddy"),
  (RE.alt (bw "Superhuman") (bw "SUPERHUMAN"), "Superhuman"),
  (RE.alt (bw "ElevenLabs") (bw "ELEVENLABS"), "ElevenLabs"),
  (RE.alt (bw "Addigy") (bw "ADIGY"), "Addigy"),
  (bw "PyCharm", "JetBrains PyCharm"),
  (bw "Gamma", "Gamma"),
  (RE.alt (bw "Starlink") (bw "STARLINK"), "Starlink"),
  (bw "Crystal Reports", "SAP Crystal Reports"),
  -- Utilities
  (RE.alt (bw "AT&T") (RE.alt (bw "ATT") (bw "Mobile Telephone")), "AT&T"),
  (RE.alt (bw "GFiber")
    (RE.alt (bw "Google Fiber")
      (reCat [RE.wb, lit "Utilities", RE.dotstar, lit "Internet", RE.wb])), "Google Fiber"),
  (RE.alt (bw "Verizon") (bw "VZW"), "Verizon"),
  -- Retail/Hardware
  (RE.alt (bw "Amazon") (bw "AMAZON"), "Amazon"),
  (RE.alt (bw "Best Buy") (bw "BEST BUY"), "Best Buy"),
  (RE.alt (bw "Walmart") (bw "WALMART"), "Walmart"),
  (RE.alt (bw "Dell") (bw "DELL"), "Dell"),
  (RE.alt (bw "Apple") (bw "APPLE"), "Apple"),
  (bw "Owl Labs", "Owl Labs"),
  (RE.alt (bw "UPS Store") (reCat [bw "UPS", RE.dotstar, lit "Shipping"]), "UPS"),
  -- Restaurants/Meals
  (RE.alt (bw "Chick-fil-A") (bw "Chickfila"), "Chick-fil-A"),
  (RE.alt (bw "Chilis")
    (reCat [RE.wb, lit "Chili", RE.opt quoteChar, lit "s", RE.wb]), "Chilis"),
  (bw "Five Guys", "Five Guys"),
  (bw "Buffalo Wild Wings", "Buffalo Wild Wings"),
  (bw "DoorDash", "DoorDash"),
  (bw "Starbucks", "Starbucks"),
  -- Generic travel/meal patterns
  (bw "Flight", "Flight"),
  (bw "Hotel", "Hotel"),
  (RE.alt (bw "Car Rental") (bw "Rental Car"), "Car Rental"),
  (bw "Breakfast", "Meal - Breakfast"),
  (bw "Lunch", "Meal - Lunch"),
  (bw "Dinner", "Meal - Dinner"),
  (bw "Meal", "Meal")]

/-- The noise tokens whose presence at the start of the first word makes
`extract_vendor` drop that word (the `skip` list in the script). -/
def SKIP_STARTS : List String :=
  ["PAYPAL", "DNH*", "PY", "DMI*", "IAH", "ATL", "MSY", "DFW", "RDU"]

/-- The final expression of the fallback:
`' '.join(words[:2]) if len(words) >= 2 else words[0] if words else 'Unknown'`. -/
def firstTwo : List String → String
  | [] => "Unknown"
  | [w1] => w1
  | w1 :: w2 :: _ => w1 ++ " " ++ w2

/-- The fallback of `extract_vendor` after the whitespace split: drop the
first word when it starts with a noise token, then return the first two
words joined by a space, the single word, or `"Unknown"`. -/
def fallbackWords (words : List String) : String :=
  match words with
  | [] => "Unknown"
  | w :: rest =>
    firstTwo (if SKIP_STARTS.any (fun p => pyStartsWith w p) then rest else w :: rest)

/-- The classifier `extract_vendor` from the script: first matching rule of
`VENDOR_PATTERNS` wins; otherwise the word-based fallback. -/
def extract_vendor (description : String) : String :=
  match VENDOR_PATTERNS.find? (fun pr => reSearch pr.1 description) with
  | some pr => pr.2
  | none => fallbackWords (pySplitWs description)

/-! ## Amount parsing (`parse_amount`)

Python's `float(s)` on the cleaned amount text is modelled exactly on the
finite decimal/exponent literals it accepts (optional sign, digit groups
with single underscores between digits, optional fraction, optional
exponent); the value of such a literal is an exact rational.  The
non-finite spellings `inf`/`nan` are outside the model. -/

/-- Value of a list of decimal digits. -/
def digitsToNat (ds : List Char) : Nat :=
  ds.foldl (fun n d => 10 * n + (d.toNat - 48)) 0

/-- Continue a digit group: more digits, or a single underscore that must
be followed by a digit.  Returns the digits collected and the rest. -/
def digitGroupGo (acc : List Char) : List Char → (List Char × List Char)
  | [] => (acc, [])
  | d :: rest =>
    if d.isDigit then digitGroupGo (acc ++ [d]) rest
    else if d = '_' then
      match rest with
      | e :: rest2 =>
        if e.isDigit then digitGroupGo (acc ++ [e]) rest2 else (acc, d :: rest)
      | [] => (acc, [d])
    else (acc, d :: rest)

/-- Parse a digit group (`digit (digit | _ digit)*`), or fail when the
input does not start with a digit. -/
def digitGroup : List Char → Option (List Char × List Char)
  | c :: rest => if c.isDigit then some (digitGroupGo [c] rest) else none
  | [] => none

/-- Leading sign, as an integer factor. -/
def readSign : List Char → (Int × List Char)
  | '+' :: t => (1, t)
  | '-' :: t => (-1, t)
  | cs => (1, cs)

/-- Optional exponent suffix: empty input means exponent `0`; otherwise
the whole rest must be `e`/`E`, an optional sign and a digit group. -/
def expPart : List Char → Option Int
  | [] => some 0
  | c :: t =>
    if c = 'e' || c = 'E' then
      let st := readSign t
      match digitGroup st.2 with
      | some (ds, rest) =>
        if rest = [] then some (st.1 * (digitsToNat ds : Int)) else none
      | none => none
    else none

/-- The value `sgn * digits * 10 ^ (z - fpLen)` as a scaled integer
`(numerator, power-of-ten denominator)`, where `digits` are all mantissa
digits and `fpLen` of them are fraction digits. -/
def scaled (sgn : Int) (ds : List Char) (fpLen : Nat) (z : Int) : Int × Nat :=
  let k : Int := z - fpLen
  if 0 ≤ k then (sgn * (digitsToNat ds : Int) * 10 ^ k.toNat, 0)
  else (sgn * (digitsToNat ds : Int), (-k).toNat)

/-- Python's `float(s)` on finite decimal literals, with the exact value
returned as a scaled integer `(n, e)` meaning `n / 10 ^ e`; `none`
exactly when `float` raises `ValueError` on such input.  The non-finite
spellings `inf`/`nan` are outside the model. -/
def pyFloatCore (cs : List Char) : Option (Int × Nat) :=
  let sc := readSign cs
  match digitGroup sc.2 with
  | some (ip, rest) =>
    match rest with
    | '.' :: t =>
      match digitGroup t with
      | some (fp, rest2) => (expPart rest2).map (scaled sc.1 (ip ++ fp) fp.length)
      | none => (expPart t).map (scaled sc.1 ip 0)
    | _ => (expPart rest).map (scaled sc.1 ip 0)
  | none =>
    match sc.2 with
    | '.' :: t =>
      match digitGroup t with
      | some (fp, rest2) => (expPart rest2).map (scaled sc.1 fp fp.length)
      | none => none
    | _ => none

/-- Python `float(s)` on a string. -/
def pyFloat? (s : String) : Option (Int × Nat) := pyFloatCore s.data

/-- The rational value of a scaled integer. -/
def ratOfScaled (p : Int × Nat) : Rat := (p.1 : Rat) / (10 : Rat) ^ p.2

/-- The cleaning step of `parse_amount`:
`amount_str.replace('$', '').replace(',', '').strip()`. -/
def cleanAmount (s : String) : String :=
  pyStrip (pyRemoveChar (pyRemoveChar s '$') ',')

/-- The function `parse_amount` from the script: clean, parse as a float, and default
to `0.0` on failure. -/
def parse_amount (s : String) : Rat :=
  match pyFloat? (cleanAmount s) with
  | some p => ratOfScaled p
  | none => 0

/-! ## The table extractor (`parse_markdown_file`) -/

/-- One expense record, mirroring the `ExpenseLine` named tuple. -/
structure ExpenseLine where
  date : String
  description : String
  vendor : String
  amount : Rat
  gl_code : String
  department : String
  source_file : String
deriving DecidableEq

/-- The loop state of `parse_markdown_file`: the two flags and the
records accumulated so far, in emission order. -/
structure PState where
  in_table : Bool
  header_found : Bool
  expenses : List ExpenseLine
deriving DecidableEq

/-- The fields of a candidate data row: split on `|`, strip each field,
keep the non-empty ones (`parts = [p for p in parts if p]`). -/
def rowFields (line : String) : List String :=
  ((pySplitChar line '|').map pyStrip).filter (fun p => p ≠ "")

/-- One iteration of the line loop of `parse_markdown_file`, translated
branch by branch: strip; skip empty lines; header test (both states);
separator skip; totals / non-row close; data-row parse. -/
def stepLine (src : String) (st : PState) (raw : String) : PState :=
  let line := pyStrip raw
  if line = "" then st
  else if pyContains line "| Date |" && pyContains line "GL Acct" then
    ⟨true, true, st.expenses⟩
  else if st.in_table && pyStartsWith line "|---" then st
  else if st.in_table && (pyContains line "**Total" || !pyStartsWith line "|") then
    ⟨false, st.header_found, st.expenses⟩
  else if st.in_table && pyStartsWith line "|" then
    match rowFields line with
    | date :: gl :: dept :: desc :: amt :: _ =>
      ⟨st.in_table, st.header_found, st.expenses ++
        [⟨date, desc, extract_vendor desc, parse_amount amt,
          pyRemoveChar gl '.', dept, src⟩]⟩
    | _ => st
  else st

/-- The function `parse_markdown_file`, on the file's text content and name: fold the
line loop over `content.split('\n')` from the initial state. -/
def parse_markdown_file (content : String) (sourceName : String) : List ExpenseLine :=
  ((pySplitChar content '\n').foldl (stepLine sourceName) ⟨false, false, []⟩).expenses

/-! ## Definitions taken from the specification's words

These model phrases of the spec that the corrected claims compare the
code against; they are deliberately written from the spec, not from the
code. -/

/-- From the spec's words: split the row on the delimiter, discard only
the leading and trailing empty fields produced by the delimiters at the
line boundaries, and trim whitespace from each remaining field. -/
def rowFields_spec (line : String) : List String :=
  ((((pySplitChar line '|').dropWhile (fun p => p = "")).reverse.dropWhile
      (fun p => p = "")).reverse).map pyStrip

/-- From the spec's words: the second field with its trailing period
characters stripped and all other characters left unchanged. -/
def stripTrailingDots (s : String) : String :=
  ⟨(s.data.reverse.dropWhile (fun c => c = '.')).reverse⟩

/-- From the spec's words: a line consisting solely of table-separator
punctuation (the characters of a markdown header/body divider row). -/
def isSepLine (line : String) : Bool :=
  !line.data.isEmpty && line.data.all (fun c => c = '|' || c = '-' || c = ' ')

/-- A document with two expense tables: header, data row, totals row,
prose, then a second header and data row. -/
def twoTableDoc : String :=
  "| Date | GL Acct |\n| 1/1/25 | 6001. | IT | Zzz | $1.00 |\n**Total**\nnote\n| Date | GL Acct |\n| 2/2/25 | 6002 | HR | Qqq | $2.00 |"

/-! ## Helper lemmas -/

theorem startsL_append (n : List Char) :
    ∀ (h s : List Char), startsL n h = true → startsL n (h ++ s) = true := by
  induction n with
  | nil => intro h s _; rfl
  | cons c ns ih =>
    intro h s hs
    cases h with
    | nil => simp [startsL] at hs
    | cons a t =>
      simp only [startsL, Bool.and_eq_true, decide_eq_true_eq] at hs ⊢
      exact ⟨hs.1, ih t s hs.2⟩

theorem containsL_cons (n : List Char) (a : Char) (t : List Char)
    (h : containsL n t = true) : containsL n (a :: t) = true := by
  simp only [containsL, Bool.or_eq_true]
  exact Or.inr h

theorem containsL_nil_needle : ∀ (s : List Char), containsL [] s = true
  | [] => rfl
  | _ :: t => by
    simp only [containsL, Bool.or_eq_true]
    exact Or.inl rfl

theorem containsL_append_right (n : List Char) :
    ∀ (h s : List Char), containsL n h = true → containsL n (h ++ s) = true := by
  intro h
  induction h with
  | nil =>
    intro s hc
    cases n with
    | nil => exact containsL_nil_needle s
    | cons c ns => simp [containsL, startsL] at hc
  | cons a t ih =>
    intro s hc
    simp only [containsL, Bool.or_eq_true] at hc
    rcases hc with hc | hc
    · simp only [List.cons_append, containsL, Bool.or_eq_true]
      exact Or.inl (startsL_append n (a :: t) s hc)
    · exact containsL_cons n a (t ++ s) (ih s hc)

theorem containsL_dropWhile (p : Char → Bool) (n : List Char) :
    ∀ (l : List Char), containsL n (l.dropWhile p) = true → containsL n l = true := by
  intro l
  induction l with
  | nil => exact fun h => h
  | cons a t ih =>
    intro hc
    rw [List.dropWhile_cons] at hc
    by_cases hp : p a = true
    · rw [if_pos hp] at hc
      exact containsL_cons n a t (ih hc)
    · rw [if_neg hp] at hc
      exact hc

theorem containsL_strip (n cs : List Char)
    (h : containsL n (stripL cs) = true) : containsL n cs = true := by
  apply containsL_dropWhile Char.isWhitespace n cs
  have h1 := List.takeWhile_append_dropWhile Char.isWhitespace
      (cs.dropWhile Char.isWhitespace).reverse
  have h2 := congrArg List.reverse h1
  rw [List.reverse_append, List.reverse_reverse] at h2
  rw [← h2]
  exact containsL_append_right n _ _ h

/-- Substring containment survives stripping: anything found in the
stripped line was already in the raw line. -/
theorem pyContains_of_strip (l sub : String)
    (h : pyContains (pyStrip l) sub = true) : pyContains l sub = true :=
  containsL_strip sub.data l.data h

/-- The function `List.find?` returns the element at the first index whose test
succeeds when every earlier index fails. -/
theorem find?_of_first {α : Type} (p : α → Bool) (l : List α) :
    ∀ (i : Nat) (hi : i < l.length),
      (∀ (j : Nat) (hj : j < l.length), j < i → p (l.get ⟨j, hj⟩) = false) →
      p (l.get ⟨i, hi⟩) = true → l.find? p = some (l.get ⟨i, hi⟩) := by
  induction l with
  | nil => intro i hi _ _; simp at hi
  | cons a t ih =>
    intro i hi h1 h2
    cases i with
    | zero =>
      exact List.find?_cons_of_pos t h2
    | succ k =>
      have ha : p a = false := h1 0 (Nat.succ_pos _) (Nat.succ_pos _)
      rw [List.find?_cons_of_neg t (by simp [ha])]
      exact ih k (Nat.lt_of_succ_lt_succ hi)
        (fun j hj hjk => h1 (j + 1) (Nat.succ_lt_succ hj) (Nat.succ_lt_succ hjk)) h2

/-! ### Branch lemmas for `stepLine` -/

theorem stepLine_blank (src : String) (st : PState) (raw : String)
    (h : pyStrip raw = "") : stepLine src st raw = st := by
  simp [stepLine, h]

theorem stepLine_header (src : String) (st : PState) (raw l : String)
    (hl : pyStrip raw = l)
    (h : (pyContains l "| Date |" && pyContains l "GL Acct") = true) :
    stepLine src st raw = ⟨true, true, st.expenses⟩ := by
  have hne : ¬ (l = "") := by
    intro he
    rw [he] at h
    exact absurd h (by decide)
  simp [stepLine, hl, hne, h]

theorem stepLine_sep (src : String) (st : PState) (raw l : String)
    (h1 : st.in_table = true) (hl : pyStrip raw = l)
    (hh : (pyContains l "| Date |" && pyContains l "GL Acct") = false)
    (hs : pyStartsWith l "|---" = true) :
    stepLine src st raw = st := by
  have hne : ¬ (l = "") := by
    intro he
    rw [he] at hs
    exact absurd hs (by decide)
  simp [stepLine, hl, hne, hh, h1, hs]

theorem stepLine_close (src : String) (st : PState) (raw l : String)
    (h1 : st.in_table = true) (hl : pyStrip raw = l) (hne : l ≠ "")
    (hh : (pyContains l "| Date |" && pyContains l "GL Acct") = false)
    (hsep : pyStartsWith l "|---" = false)
    (hc : (pyContains l "**Total" || !pyStartsWith l "|") = true) :
    stepLine src st raw = ⟨false, st.header_found, st.expenses⟩ := by
  simp [stepLine, hl, hne, hh, h1, hsep, hc]

theorem strApp_data (a b : String) : (a ++ b).data = a.data ++ b.data := by
  cases a
  cases b
  rfl

theorem firstTwo_ne (l : List String) (h : ∀ w ∈ l, w ≠ "") : firstTwo l ≠ "" := by
  match l with
  | [] => decide
  | [w1] => exact h w1 (List.mem_singleton_self w1)
  | w1 :: w2 :: rest =>
    intro he
    simp only [firstTwo] at he
    have hd := congrArg String.data he
    rw [strApp_data, strApp_data] at hd
    simp at hd

theorem pySplitWs_ne_empty (s : String) : ∀ w ∈ pySplitWs s, w ≠ "" := by
  intro w hw
  rw [pySplitWs] at hw
  exact of_decide_eq_true (List.mem_filter.mp hw).2

theorem stepLine_no_header (src : String) (hf : Bool) (E : List ExpenseLine) (raw : String)
    (h : (pyContains raw "| Date |" && pyContains raw "GL Acct") = false) :
    stepLine src ⟨false, hf, E⟩ raw = ⟨false, hf, E⟩ := by
  have hstr : (pyContains (pyStrip raw) "| Date |" &&
      pyContains (pyStrip raw) "GL Acct") = false := by
    by_contra hc
    rw [Bool.not_eq_false, Bool.and_eq_true] at hc
    have hA := pyContains_of_strip raw "| Date |" hc.1
    have hB := pyContains_of_strip raw "GL Acct" hc.2
    rw [hA, hB] at h
    simp at h
  by_cases he : pyStrip raw = ""
  · exact stepLine_blank src _ raw he
  · simp [stepLine, he, hstr]

theorem fold_outside (src : String) (ls : List String) :
    ∀ (hf : Bool) (E : List ExpenseLine),
      (∀ l ∈ ls, (pyContains l "| Date |" && pyContains l "GL Acct") = false) →
      ls.foldl (stepLine src) ⟨false, hf, E⟩ = ⟨false, hf, E⟩ := by
  induction ls with
  | nil => intro hf E _; rfl
  | cons a t ih =>
    intro hf E h
    rw [List.foldl_cons, stepLine_no_header src hf E a (h a (List.mem_cons_self a t))]
    exact ih hf E (fun l hl => h l (List.mem_cons_of_mem a hl))

theorem stepLine_row (src : String) (st : PState) (raw l : String)
    (h1 : st.in_table = true) (hl : pyStrip raw = l)
    (hh : (pyContains l "| Date |" && pyContains l "GL Acct") = false)
    (hsep : pyStartsWith l "|---" = false)
    (htot : pyContains l "**Total" = false)
    (hrow : pyStartsWith l "|" = true) :
    stepLine src st raw =
      match rowFields l with
      | date :: gl :: dept :: desc :: amt :: _ =>
        ⟨st.in_table, st.header_found, st.expenses ++
          [⟨date, desc, extract_vendor desc, parse_amount amt,
            pyRemoveChar gl '.', dept, src⟩]⟩
      | _ => st := by
  have hne : ¬ (l = "") := by
    intro he
    rw [he] at hrow
    exact absurd hrow (by decide)
  simp [stepLine, hl, hne, hh, h1, hsep, htot, hrow]

/-! ## Claims -/

/-- C1: `extract_vendor` tests the rules of the static ordered list
top-to-bottom with case-insensitive anywhere-matching (`reSearch`) and
returns the canonical label of the first matching rule; in particular a
description matching both the "Hampton Inn" rule and the later generic
"Hotel" rule resolves to "Hampton Inn", also in lower case. -/
theorem C1_ordered_first_match :
    (∀ (d : String) (i : Nat) (hi : i < VENDOR_PATTERNS.length),
        (∀ (j : Nat) (hj : j < VENDOR_PATTERNS.length), j < i →
          reSearch (VENDOR_PATTERNS.get ⟨j, hj⟩).1 d = false) →
        reSearch (VENDOR_PATTERNS.get ⟨i, hi⟩).1 d = true →
        extract_vendor d = (VENDOR_PATTERNS.get ⟨i, hi⟩).2)
    ∧ extract_vendor "Hampton Inn Hotel" = "Hampton Inn"
    ∧ extract_vendor "hampton inn hotel" = "Hampton Inn" := by
  refine ⟨?_, by decide, by decide⟩
  intro d i hi h1 h2
  rw [extract_vendor,
    find?_of_first (fun pr => reSearch pr.1 d) VENDOR_PATTERNS i hi h1 h2]

/-- Witness for C1: rule index 4 ("Hampton Inn") matches
"Hampton Inn Downtown Hotel" while rules 0–3 do not, so the classifier
returns "Hampton Inn" even though the later "Hotel" rule also matches. -/
theorem C1_witness : extract_vendor "Hampton Inn Downtown Hotel" = "Hampton Inn" := by
  have h := C1_ordered_first_match.1 "Hampton Inn Downtown Hotel" 4 (by decide)
    (by decide) (by decide)
  exact h.trans (by decide)

/-- C9: `extract_vendor` never returns the empty string: every canonical
label of `VENDOR_PATTERNS` is non-empty, and every fallback branch
returns a non-empty token, a space-joined pair, or "Unknown". -/
theorem C9_vendor_nonempty (d : String) : extract_vendor d ≠ "" := by
  cases hf : VENDOR_PATTERNS.find? (fun pr => reSearch pr.1 d) with
  | some pr =>
    rw [extract_vendor, hf]
    have hall : ∀ x ∈ VENDOR_PATTERNS, x.2 ≠ "" := by decide
    exact hall pr (List.mem_of_find?_eq_some hf)
  | none =>
    rw [extract_vendor, hf]
    have hws := pySplitWs_ne_empty d
    cases hw : pySplitWs d with
    | nil => rw [fallbackWords]; decide
    | cons w rest =>
      rw [hw] at hws
      rw [fallbackWords]
      apply firstTwo_ne
      intro x hx
      by_cases hc : SKIP_STARTS.any (fun p => pyStartsWith w p) = true
      · rw [if_pos hc] at hx
        exact hws x (List.mem_cons_of_mem w hx)
      · rw [if_neg hc] at hx
        exact hws x hx

/-- C7: when no rule matches, `extract_vendor` splits the description on
whitespace, drops a leading noise-prefixed token, and returns the first
two remaining tokens joined by a space, the single remaining token, or
"Unknown"; in particular the PAYPAL prefix is stripped and the empty
description yields "Unknown". -/
theorem C7_fallback :
    (∀ d : String, (∀ pr ∈ VENDOR_PATTERNS, reSearch pr.1 d = false) →
        extract_vendor d = fallbackWords (pySplitWs d))
    ∧ extract_vendor "PAYPAL *SOMECO monthly fee" = "*SOMECO monthly"
    ∧ extract_vendor "" = "Unknown" := by
  refine ⟨?_, by decide, by decide⟩
  intro d h
  have hnone : VENDOR_PATTERNS.find? (fun pr => reSearch pr.1 d) = none := by
    rw [List.find?_eq_none]
    intro x hx
    simp [h x hx]
  rw [extract_vendor, hnone]

/-- Witness for C7: a description matching no rule goes through the
word-based fallback. -/
theorem C7_witness :
    extract_vendor "QQQ WWW EEE" = fallbackWords (pySplitWs "QQQ WWW EEE") :=
  C7_fallback.1 "QQQ WWW EEE" (by decide)

/-- C6: `parse_amount` removes the dollar signs and commas, strips
whitespace (`cleanAmount`), parses the result as a decimal number, and
yields `0.0` on parse failure; in particular `"$1,234.56"` parses to
`1234.56`, `"$0.00"` to `0.0` and `"garbage"` to `0.0`. -/
theorem C6_amount_parsing :
    (∀ (s : String) (p : Int × Nat), pyFloat? (cleanAmount s) = some p →
        parse_amount s = ratOfScaled p)
    ∧ (∀ s : String, pyFloat? (cleanAmount s) = none → parse_amount s = 0)
    ∧ cleanAmount "$1,234.56" = "1234.56"
    ∧ parse_amount "$1,234.56" = 123456 / 100
    ∧ parse_amount "$0.00" = 0
    ∧ parse_amount "garbage" = 0 := by
  refine ⟨?_, ?_, by decide, ?_, ?_, ?_⟩
  · intro s p h
    rw [parse_amount, h]
  · intro s h
    rw [parse_amount, h]
  · have h : pyFloat? (cleanAmount "$1,234.56") = some (123456, 2) := by decide
    rw [parse_amount, h]
    norm_num [ratOfScaled]
  · have h : pyFloat? (cleanAmount "$0.00") = some (0, 2) := by decide
    rw [parse_amount, h]
    norm_num [ratOfScaled]
  · have h : pyFloat? (cleanAmount "garbage") = none := by decide
    rw [parse_amount, h]

/-- Witness for C6: the general clause evaluated at a concrete amount. -/
theorem C6_witness : parse_amount "$2,500.75" = 250075 / 100 := by
  have h := C6_amount_parsing.1 "$2,500.75" (250075, 2) (by decide)
  rw [h]
  norm_num [ratOfScaled]

/-- C2 counterexample: the claim says only the leading and trailing
empty fields are discarded, so for the row `|A|B||C|D|E|` it predicts the
six fields `["A","B","","C","D","E"]` and hence department `""` (the
third field).  The code discards every empty field, keeps five fields
and emits department `"C"`. -/
theorem C2_counterexample :
    rowFields_spec "|A|B||C|D|E|" = ["A", "B", "", "C", "D", "E"]
    ∧ (rowFields_spec "|A|B||C|D|E|").get? 2 = some ""
    ∧ (parse_markdown_file "| Date | GL Acct |\n|A|B||C|D|E|" "f").map
        (fun e => e.department) = ["C"]
    ∧ (some "" : Option String) ≠ some "C" :=
  ⟨by decide, by decide, by decide, by decide⟩

/-- C2 (amended): for a data row reached inside the table, the fields
are obtained by splitting on `|`, trimming each field, and discarding
every field that is then empty (boundary artifacts and interior empty or
whitespace-only cells alike); a record is emitted iff at least five
fields remain, the first five mapped positionally to date, GL code,
department, description and amount text, extras ignored, shorter rows
silently dropped. -/
theorem C2_row_parsing (src : String) (st : PState) (raw l : String)
    (h1 : st.in_table = true) (hl : pyStrip raw = l)
    (hh : (pyContains l "| Date |" && pyContains l "GL Acct") = false)
    (hsep : pyStartsWith l "|---" = false)
    (htot : pyContains l "**Total" = false)
    (hrow : pyStartsWith l "|" = true) :
    rowFields l = ((pySplitChar l '|').map pyStrip).filter (fun p => p ≠ "")
    ∧ ((rowFields l).length < 5 → stepLine src st raw = st)
    ∧ (∀ (d g dp ds a : String) (rest : List String),
        rowFields l = d :: g :: dp :: ds :: a :: rest →
        stepLine src st raw = ⟨st.in_table, st.header_found, st.expenses ++
          [⟨d, ds, extract_vendor ds, parse_amount a,
            pyRemoveChar g '.', dp, src⟩]⟩) := by
  have hstep := stepLine_row src st raw l h1 hl hh hsep htot hrow
  refine ⟨rfl, ?_, ?_⟩
  · intro hlen
    rw [hstep]
    rcases hr : rowFields l with _ | ⟨d, _ | ⟨g, _ | ⟨dp, _ | ⟨ds, _ | ⟨a, rest⟩⟩⟩⟩⟩ <;>
      try rfl
    exfalso
    rw [hr] at hlen
    simp only [List.length_cons] at hlen
    omega
  · intro d g dp ds a rest hr
    rw [hstep, hr]

/-- Witness for C2: a six-field row emits one record mapped positionally,
the sixth field ignored. -/
theorem C2_witness :
    stepLine "f" ⟨true, true, []⟩ "| 1/2 | 6415. | IT | Lunch | $5.00 | x |" =
      ⟨true, true,
        [⟨"1/2", "Lunch", "Meal - Lunch", parse_amount "$5.00", "6415", "IT", "f"⟩]⟩ := by
  have h := (C2_row_parsing "f" ⟨true, true, []⟩ "| 1/2 | 6415. | IT | Lunch | $5.00 | x |"
      "| 1/2 | 6415. | IT | Lunch | $5.00 | x |" rfl (by decide) (by decide) (by decide)
      (by decide) (by decide)).2.2 "1/2" "6415." "IT" "Lunch" "$5.00" ["x"] (by decide)
  rw [h]
  rw [show extract_vendor "Lunch" = "Meal - Lunch" from by decide,
    show pyRemoveChar "6415." '.' = "6415" from by decide]
  rfl

/-- C3 counterexample: the claim says only trailing periods are
stripped, so the GL field `64.15` should stay `64.15`; the code removes
every period and emits `6415`. -/
theorem C3_counterexample :
    stripTrailingDots "64.15" = "64.15"
    ∧ (parse_markdown_file "| Date | GL Acct |\n| 1/3 | 64.15 | IT | Zzz | $7.00 |" "f").map
        (fun e => e.gl_code) = ["6415"]
    ∧ ("6415" : String) ≠ "64.15" :=
  ⟨by decide, by decide, by decide⟩

/-- C3 (amended): the emitted record's GL code is the row's second field
with every period character removed, all other characters unchanged (a
character filter on the field). -/
theorem C3_gl_code (src : String) (st : PState) (raw l : String)
    (h1 : st.in_table = true) (hl : pyStrip raw = l)
    (hh : (pyContains l "| Date |" && pyContains l "GL Acct") = false)
    (hsep : pyStartsWith l "|---" = false)
    (htot : pyContains l "**Total" = false)
    (hrow : pyStartsWith l "|" = true)
    (d g dp ds a : String) (rest : List String)
    (hr : rowFields l = d :: g :: dp :: ds :: a :: rest) :
    (stepLine src st raw).expenses.map (fun e => e.gl_code) =
      st.expenses.map (fun e => e.gl_code) ++ [pyRemoveChar g '.']
    ∧ (pyRemoveChar g '.').data = g.data.filter (fun c => c ≠ '.') := by
  have hstep := stepLine_row src st raw l h1 hl hh hsep htot hrow
  constructor
  · rw [hstep, hr]
    simp
  · rfl

/-- Witness for C3: interior and trailing periods are both removed. -/
theorem C3_witness :
    (stepLine "f" ⟨true, true, []⟩ "| 1/4 | 60.10. | IT | Zzz | $1.00 |").expenses.map
      (fun e => e.gl_code) = ["6010"] := by
  have h := (C3_gl_code "f" ⟨true, true, []⟩ "| 1/4 | 60.10. | IT | Zzz | $1.00 |"
      "| 1/4 | 60.10. | IT | Zzz | $1.00 |" rfl (by decide) (by decide) (by decide)
      (by decide) (by decide) "1/4" "60.10." "IT" "Zzz" "$1.00" [] (by decide)).1
  rw [h]
  decide

/-- C4: while inside the table, a line that reaches the close guard (it
is not a header line and does not start the `|---` separator) and either
contains the totals marker or does not begin with `|` moves the state to
outside-table and produces no record; and an empty (or whitespace-only)
line is skipped in every state, so a blank line never closes the table. -/
theorem C4_close_and_blank :
    (∀ (src : String) (st : PState) (raw l : String),
        st.in_table = true → pyStrip raw = l → l ≠ "" →
        (pyContains l "| Date |" && pyContains l "GL Acct") = false →
        pyStartsWith l "|---" = false →
        (pyContains l "**Total" || !pyStartsWith l "|") = true →
        stepLine src st raw = ⟨false, st.header_found, st.expenses⟩)
    ∧ (∀ (src : String) (st : PState) (raw : String),
        pyStrip raw = "" → stepLine src st raw = st) :=
  ⟨fun src st raw l h1 hl hne hh hsep hc =>
      stepLine_close src st raw l h1 hl hne hh hsep hc,
    fun src st raw h => stepLine_blank src st raw h⟩

/-- Witness for C4: a totals line closes the table without a record; a
whitespace-only line leaves the inside-table state untouched. -/
theorem C4_witness :
    stepLine "f" ⟨true, true, []⟩ "**Total: $12.00**" = ⟨false, true, []⟩
    ∧ stepLine "f" ⟨true, true, []⟩ "   " = ⟨true, true, []⟩ := by
  constructor
  · exact C4_close_and_blank.1 "f" ⟨true, true, []⟩ "**Total: $12.00**" "**Total: $12.00**"
      rfl (by decide) (by decide) (by decide) (by decide) (by decide)
  · exact C4_close_and_blank.2 "f" ⟨true, true, []⟩ "   " (by decide)

/-- C5 counterexample: the spaced markdown divider row
`| --- | --- | --- | --- | --- |` consists solely of table-separator
punctuation, yet inside the table the code parses it as a data row with
five non-empty fields and emits a (junk) record, contradicting
"consumed without producing a record"; and the pipe-less divider
`---|---|---|---|---` (also solely separator punctuation) closes the
table, contradicting "leaves the state inside-table".  Only lines
beginning with `|---` behave as the claim says. -/
theorem C5_counterexample :
    isSepLine "| --- | --- | --- | --- | --- |" = true
    ∧ (stepLine "f" ⟨true, true, []⟩ "| --- | --- | --- | --- | --- |").expenses.map
        (fun e => e.department) = ["---"]
    ∧ isSepLine "---|---|---|---|---" = true
    ∧ (stepLine "f" ⟨true, true, []⟩ "---|---|---|---|---").in_table = false :=
  ⟨by decide, by decide, by decide, by decide⟩

/-- C5 (amended): while inside the table, every line whose stripped text
begins with `|---` (the separator shape the code recognizes) is consumed
without producing a record and leaves the state inside-table; separator
rows using spaces between `|` and the dashes are not recognized. -/
theorem C5_sep_rows (src : String) (st : PState) (raw l : String)
    (h1 : st.in_table = true) (hl : pyStrip raw = l)
    (hs : pyStartsWith l "|---" = true) :
    (stepLine src st raw).in_table = true
    ∧ (stepLine src st raw).expenses = st.expenses := by
  cases hh : (pyContains l "| Date |" && pyContains l "GL Acct") with
  | true =>
    rw [stepLine_header src st raw l hl hh]
    exact ⟨rfl, rfl⟩
  | false =>
    rw [stepLine_sep src st raw l h1 hl hh hs]
    exact ⟨h1, rfl⟩

/-- Witness for C5: a `|---` divider row inside the table is skipped. -/
theorem C5_witness :
    (stepLine "f" ⟨true, false, []⟩ "|---|---|---|").in_table = true
    ∧ (stepLine "f" ⟨true, false, []⟩ "|---|---|---|").expenses = [] := by
  have h := C5_sep_rows "f" ⟨true, false, []⟩ "|---|---|---|" "|---|---|---|"
    rfl (by decide) (by decide)
  exact h

/-- C8: a text none of whose lines contains both the `| Date |` and
`GL Acct` header markers parses to the empty record list (and `parse`
is total, so no error is possible). -/
theorem C8_no_header_no_records (text src : String)
    (h : ∀ l ∈ pySplitChar text '\n',
      (pyContains l "| Date |" && pyContains l "GL Acct") = false) :
    parse_markdown_file text src = [] := by
  rw [parse_markdown_file, fold_outside src _ false [] h]

/-- Witness for C8: a document with rows but no header contributes no
records. -/
theorem C8_witness :
    parse_markdown_file "hello\nno table here\n| foo | bar | baz | qux | quux |" "f" = [] :=
  C8_no_header_no_records _ "f" (by decide)

/-- C10: the header test is applied in both states — any line whose
stripped text contains both header markers puts the machine in the
inside-table state with no record emitted, whatever the current state —
so a later header reopens the table and a document with two tables
contributes the records of both, in line order. -/
theorem C10_header_reopens :
    (∀ (src : String) (st : PState) (raw l : String), pyStrip raw = l →
        (pyContains l "| Date |" && pyContains l "GL Acct") = true →
        stepLine src st raw = ⟨true, true, st.expenses⟩)
    ∧ (parse_markdown_file twoTableDoc "f").map (fun e => e.date) = ["1/1/25", "2/2/25"] := by
  constructor
  · intro src st raw l hl hh
    exact stepLine_header src st raw l hl hh
  · decide

/-- Witness for C10: a header line reopens the table from the
outside-table state after a close. -/
theorem C10_witness :
    stepLine "g" ⟨false, false, []⟩ "| Date | GL Acct/Job |" = ⟨true, true, []⟩ := by
  have h := C10_header_reopens.1 "g" ⟨false, false, []⟩ "| Date | GL Acct/Job |"
    "| Date | GL Acct/Job |" (by decide) (by decide)
  exact h

end ExpenseTrack
